import Mathlib

/-!
Verification of the answer-private plugin (answer_private.go).

The plugin intercepts responses of two endpoints and filters them by
ownership.  We embed the code shallowly:

* JSON values decoded by `json.Unmarshal` into `map[string]any` become the
  inductive `Json`, with objects as association lists (`jlookup` is Go map
  lookup, `setField` is Go map assignment).
* The wire envelope `responseEnvelope` becomes the structure `Envelope`;
  its `json.RawMessage` data field becomes `RawData` (absent bytes,
  the literal bytes "null", or a decoded JSON value).
* A captured response body (a byte string in Go) is embedded by its parse
  outcome `Body`: empty bytes, bytes that fail envelope decoding, or bytes
  that decode to some envelope.  `json.Marshal` of an envelope produced by
  the code round-trips, so the bytes the filter writes are represented by
  the envelope they decode to.
* Statuses are `Nat`, with 0 meaning "no status was set / no override",
  exactly as in the Go code.
-/

namespace AnswerPrivate

/-- A decoded JSON value, as produced by json.Unmarshal into `any`.
Objects are association lists; a decoded Go map never has duplicate keys,
and all reasoning goes through `jlookup`, which is Go map lookup. -/
inductive Json where
  | null : Json
  | bool : Bool → Json
  | num : Int → Json
  | str : String → Json
  | arr : List Json → Json
  | obj : List (String × Json) → Json

/-- The `json.RawMessage` data field of the envelope: `absent` models
zero-length raw bytes (field missing), `nullLit` models the literal bytes
"null", and `value j` models raw bytes that decode to the JSON value `j`. -/
inductive RawData where
  | absent : RawData
  | nullLit : RawData
  | value : Json → RawData

/-- The wire envelope `responseEnvelope` from answer_private.go:
fields code, reason, msg, data. -/
structure Envelope where
  code : Int
  reason : String
  msg : String
  data : RawData

/-- A captured response body, embedded by its parse outcome:
`empty` is the zero-length byte string, `malformed` stands for any bytes
that json.Unmarshal rejects for `responseEnvelope`, and `wellFormed e`
stands for bytes that decode to envelope `e`. -/
inductive Body where
  | empty : Body
  | malformed : Body
  | wellFormed : Envelope → Body

/-- The plugin configuration struct: a single `enabled` boolean. -/
structure Config where
  enabled : Bool

/-- Constant pathAnswerInfo from the source. -/
def pathAnswerInfo : String := "/answer/api/v1/answer/info"

/-- Constant pathAnswerList from the source. -/
def pathAnswerList : String := "/answer/api/v1/answer/page"

/-- Go map lookup `payload[key]` on a decoded object. -/
def jlookup : List (String × Json) → String → Option Json
  | [], _ => none
  | (k, v) :: rest, key => if k = key then some v else jlookup rest key

/-- Go map assignment `payload[key] = v`: replace the binding if the key is
present, append it otherwise. -/
def setField : List (String × Json) → String → Json → List (String × Json)
  | [], key, v => [(key, v)]
  | (k, w) :: rest, key, v =>
      if k = key then (key, v) :: rest else (k, w) :: setField rest key v

/-- The Go type assertion `payload[key].(map[string]any)`: the nested object
stored at `key`, or `none` when the key is missing or its value is not an
object. -/
def objectAt (payload : List (String × Json)) (key : String) :
    Option (List (String × Json)) :=
  match jlookup payload key with
  | some (Json.obj fields) => some fields
  | _ => none

/-- extractUserIDFromInfo from the source: the string at `user_info.id`
inside `info`, or the empty string when `user_info` is missing, not an
object, or `id` is not a string. -/
def extractUserIDFromInfo (info : List (String × Json)) : String :=
  match objectAt info "user_info" with
  | some userInfo =>
      match jlookup userInfo "id" with
      | some (Json.str id) => id
      | _ => ""
  | none => ""

/-- extractAnswerOwnerID from the source: look under a nested object keyed
`info` when one is present, otherwise directly in the payload. -/
def extractAnswerOwnerID (payload : List (String × Json)) : String :=
  match objectAt payload "info" with
  | some info => extractUserIDFromInfo info
  | none => extractUserIDFromInfo payload

/-- extractQuestionOwnerID from the source: look under a nested object
keyed `question`, else under one keyed `question_info`, else empty. -/
def extractQuestionOwnerID (payload : List (String × Json)) : String :=
  match objectAt payload "question" with
  | some question => extractUserIDFromInfo question
  | none =>
      match objectAt payload "question_info" with
      | some questionInfo => extractUserIDFromInfo questionInfo
      | none => ""

/-- The fixed forbidden envelope built by filterAnswerInfo:
code 403, reason answer_private_forbidden, msg answer is private,
data the raw bytes "null". -/
def forbiddenEnvelope : Envelope :=
  Envelope.mk 403 "answer_private_forbidden" "answer is private" RawData.nullLit

/-- filterAnswerInfo from the source: decode data as an object; pass through
when both owners are empty or when either owner equals the caller; otherwise
replace the response with the forbidden envelope and status 403. -/
def filterAnswerInfo (envelope : Envelope) (userID : String) :
    Option Envelope × Nat × Bool :=
  match envelope.data with
  | RawData.value (Json.obj payload) =>
      let answerOwnerID := extractAnswerOwnerID payload
      let questionOwnerID := extractQuestionOwnerID payload
      if answerOwnerID = "" ∧ questionOwnerID = "" then (none, 0, false)
      else if answerOwnerID = userID ∨ questionOwnerID = userID then
        (none, 0, false)
      else (some forbiddenEnvelope, 403, true)
  | _ => (none, 0, false)

/-- The per-element body of the loop in filterAnswerList: a non-object
element yields nothing; an object element is kept exactly when some owner is
extractable and one of its owners equals the caller. -/
def filterEntry (userID : String) (item : Json) : Option Json :=
  match item with
  | Json.obj entry =>
      let answerOwnerID := extractAnswerOwnerID entry
      let questionOwnerID := extractQuestionOwnerID entry
      if answerOwnerID = "" ∧ questionOwnerID = "" then none
      else if answerOwnerID = userID ∨ questionOwnerID = userID then
        some (Json.obj entry)
      else none
  | _ => none

/-- filterAnswerList from the source: decode data as an object holding an
array-valued `list` field, keep the owned entries, overwrite `list` and
`count`, and re-encode into the same envelope. -/
def filterAnswerList (envelope : Envelope) (userID : String) :
    Option Envelope × Nat × Bool :=
  match envelope.data with
  | RawData.value (Json.obj payload) =>
      match jlookup payload "list" with
      | some (Json.arr list) =>
          let filtered := list.filterMap (filterEntry userID)
          let payload2 :=
            setField (setField payload "list" (Json.arr filtered))
              "count" (Json.num filtered.length)
          (some (Envelope.mk envelope.code envelope.reason envelope.msg
              (RawData.value (Json.obj payload2))), 0, true)
      | _ => (none, 0, false)
  | _ => (none, 0, false)

/-- filterAnswerResponse from the source: empty or malformed bodies and
envelopes whose data is absent or the literal "null" are not filterable;
otherwise dispatch on the exact path. -/
def filterAnswerResponse (path userID : String) (body : Body) :
    Option Envelope × Nat × Bool :=
  match body with
  | Body.empty => (none, 0, false)
  | Body.malformed => (none, 0, false)
  | Body.wellFormed envelope =>
      match envelope.data with
      | RawData.absent => (none, 0, false)
      | RawData.nullLit => (none, 0, false)
      | RawData.value _ =>
          if path = pathAnswerInfo then filterAnswerInfo envelope userID
          else if path = pathAnswerList then filterAnswerList envelope userID
          else (none, 0, false)

/-- The body the middleware writes when the filter changed the response:
the bytes of the marshalled envelope, which decode back to that envelope. -/
def bodyOfFiltered : Option Envelope → Body
  | some e => Body.wellFormed e
  | none => Body.empty

/-- Lines 129-142 of the source: run the filter on the captured status and
body and write to the real sink: the original pair when nothing changed,
otherwise the filtered body with the override status when one is reported. -/
def forwardFiltered (path userID : String) (status : Nat) (body : Body) :
    Nat × Body :=
  let r := filterAnswerResponse path userID body
  if r.2.2 = false then (status, body)
  else (if r.2.1 ≠ 0 then r.2.1 else status, bodyOfFiltered r.1)

/-- The guard `a.Config == nil || !a.Config.Enabled` from the middleware. -/
def configDisabled : Option Config → Bool
  | none => true
  | some c => !c.enabled

/-- answerVisibilityMiddleware from the source, as a function from the
configuration, the request path, the caller identity (empty string when
absent), and the handler's recorded status (0 when the handler never set
one) and body, to the status and body that reach the client.  The three
bypass guards return the handler output untouched; otherwise the recorder
defaults the status to 200 and the filter result is forwarded. -/
def answerVisibilityMiddleware (config : Option Config)
    (path userID : String) (handlerStatus : Nat) (handlerBody : Body) :
    Nat × Body :=
  if configDisabled config then (handlerStatus, handlerBody)
  else if path ≠ pathAnswerInfo ∧ path ≠ pathAnswerList then
    (handlerStatus, handlerBody)
  else if userID = "" then (handlerStatus, handlerBody)
  else
    forwardFiltered path userID
      (if handlerStatus ≠ 0 then handlerStatus else 200) handlerBody

/-- A configuration byte input, embedded by how json.Unmarshal treats it
for the Config struct: syntactically invalid JSON (no field is written),
valid JSON from which no `enabled` boolean is decoded, or JSON carrying an
`enabled` boolean. -/
inductive ConfigInput where
  | malformed : ConfigInput
  | objWithoutEnabled : ConfigInput
  | objWithEnabled : Bool → ConfigInput

/-- The effect of `json.Unmarshal(config, c)` on a Config value. -/
def configUnmarshal (input : ConfigInput) (c : Config) : Config :=
  match input with
  | ConfigInput.malformed => c
  | ConfigInput.objWithoutEnabled => c
  | ConfigInput.objWithEnabled b => Config.mk b

/-- ConfigReceiver from the source: start from enabled-true, apply the
unmarshal, ignore its error, and return a nil error (modelled as `none`). -/
def ConfigReceiver (input : ConfigInput) : Config × Option String :=
  (configUnmarshal input (Config.mk true), none)

/-- When the filter reports changed = false, the middleware forwards the
captured status and body verbatim (lines 134-136 of the source). -/
theorem forwardFiltered_of_unchanged (path userID : String) (status : Nat)
    (body : Body) (h : (filterAnswerResponse path userID body).2.2 = false) :
    forwardFiltered path userID status body = (status, body) := by
  simp [forwardFiltered, h]

/-- Looking up the key just written by `setField` yields the new value. -/
theorem jlookup_setField_self (p : List (String × Json)) (k : String)
    (v : Json) : jlookup (setField p k v) k = some v := by
  induction p with
  | nil => simp [setField, jlookup]
  | cons hd tl ih =>
      by_cases hk : hd.1 = k
      · simp [setField, hk, jlookup]
      · simp [setField, hk, jlookup, ih]

/-- Looking up any other key after `setField` is unchanged. -/
theorem jlookup_setField_other (p : List (String × Json)) (k : String)
    (v : Json) (key : String) (h : key ≠ k) :
    jlookup (setField p k v) key = jlookup p key := by
  have hk' : ¬k = key := fun hh => h hh.symm
  induction p with
  | nil => simp [setField, jlookup, hk']
  | cons hd tl ih =>
      by_cases hk : hd.1 = k
      · simp [setField, hk, jlookup, hk']
      · by_cases hkey : hd.1 = key
        · simp [setField, hk, jlookup, hkey, h]
        · simp [setField, hk, jlookup, hkey, ih]

/-- C9: for every path and every caller identity, an empty captured body
makes filterAnswerResponse report changed = false, and the empty body and
the recorded status are forwarded to the real sink unchanged. -/
theorem C9_empty_body_passthrough (path userID : String) (status : Nat) :
    filterAnswerResponse path userID Body.empty = (none, 0, false)
    ∧ forwardFiltered path userID status Body.empty = (status, Body.empty) := by
  refine ⟨rfl, forwardFiltered_of_unchanged path userID status Body.empty rfl⟩

/-- C8: applying the single-resource filter to the forbidden envelope it
produced (whose data is the raw bytes "null") reports changed = false for
every caller identity, so re-filtering the forbidden output forwards the
same body and status unchanged: the forbidden output is a fixed point. -/
theorem C8_forbidden_fixed_point (userID : String) (status : Nat) :
    filterAnswerResponse pathAnswerInfo userID
        (Body.wellFormed forbiddenEnvelope) = (none, 0, false)
    ∧ forwardFiltered pathAnswerInfo userID status
        (Body.wellFormed forbiddenEnvelope)
      = (status, Body.wellFormed forbiddenEnvelope) := by
  refine ⟨rfl, forwardFiltered_of_unchanged _ _ _ _ rfl⟩

/-- C10: ConfigReceiver never reports an error, and on malformed JSON or on
input that omits the enabled field the resulting configuration keeps
Enabled = true, so the plugin silently stays enabled on bad configuration. -/
theorem C10_config_receiver :
    (∀ input : ConfigInput, (ConfigReceiver input).2 = none)
    ∧ (ConfigReceiver ConfigInput.malformed).1.enabled = true
    ∧ (ConfigReceiver ConfigInput.objWithoutEnabled).1.enabled = true := by
  exact ⟨fun _ => rfl, rfl, rfl⟩

/-- C5: when the feature toggle is disabled (or no configuration is
loaded), or the path exactly matches neither endpoint, or no caller
identity is present, the middleware performs no interception and the
handler's status and body reach the client unmodified. -/
theorem C5_bypass (config : Option Config) (path userID : String)
    (handlerStatus : Nat) (handlerBody : Body)
    (h : config = none ∨ config = some (Config.mk false)
      ∨ (path ≠ pathAnswerInfo ∧ path ≠ pathAnswerList) ∨ userID = "") :
    answerVisibilityMiddleware config path userID handlerStatus handlerBody
      = (handlerStatus, handlerBody) := by
  unfold answerVisibilityMiddleware
  rcases h with h | h | h | h
  · simp [h, configDisabled]
  · simp [h, configDisabled]
  · by_cases hc : configDisabled config
    · simp [hc]
    · simp [hc, h]
  · by_cases hc : configDisabled config
    · simp [hc]
    · by_cases hp : path ≠ pathAnswerInfo ∧ path ≠ pathAnswerList
      · simp [hc, hp]
      · simp [hc, hp, h]

/-- C5 witness: the middleware with the toggle disabled passes a response
through unchanged for a caller that does not own the resource. -/
theorem C5_bypass_witness :
    (some (Config.mk false) = (none : Option Config)
      ∨ some (Config.mk false) = some (Config.mk false)
      ∨ (pathAnswerInfo ≠ pathAnswerInfo ∧ pathAnswerInfo ≠ pathAnswerList)
      ∨ "u2" = "")
    ∧ answerVisibilityMiddleware (some (Config.mk false)) pathAnswerInfo "u2"
        200 (Body.wellFormed forbiddenEnvelope)
      = (200, Body.wellFormed forbiddenEnvelope) :=
  ⟨Or.inr (Or.inl rfl),
    C5_bypass (some (Config.mk false)) pathAnswerInfo "u2" 200
      (Body.wellFormed forbiddenEnvelope) (Or.inr (Or.inl rfl))⟩

/-- C4: for the single-resource endpoint, when the envelope data decodes as
an object and the caller identity equals the extracted answer-owner or the
extracted question-owner, the filter reports changed = false and the body
and status are forwarded unchanged. -/
theorem C4_self_ownership (envelope : Envelope) (userID : String)
    (payload : List (String × Json)) (status : Nat)
    (hdata : envelope.data = RawData.value (Json.obj payload))
    (hown : extractAnswerOwnerID payload = userID
      ∨ extractQuestionOwnerID payload = userID) :
    filterAnswerResponse pathAnswerInfo userID (Body.wellFormed envelope)
      = (none, 0, false)
    ∧ forwardFiltered pathAnswerInfo userID status (Body.wellFormed envelope)
      = (status, Body.wellFormed envelope) := by
  have hfi : filterAnswerInfo envelope userID = (none, 0, false) := by
    by_cases hboth : extractAnswerOwnerID payload = ""
        ∧ extractQuestionOwnerID payload = ""
    · simp [filterAnswerInfo, hdata, hboth]
    · simp [filterAnswerInfo, hdata, hboth, hown]
  have hfr : filterAnswerResponse pathAnswerInfo userID
      (Body.wellFormed envelope) = (none, 0, false) := by
    simp [filterAnswerResponse, hdata, hfi]
  exact ⟨hfr, forwardFiltered_of_unchanged _ _ _ _ (by rw [hfr])⟩

/-- Sample payload owned by user u1 through the info nesting. -/
def samplePayload1 : List (String × Json) :=
  [("info", Json.obj [("user_info", Json.obj [("id", Json.str "u1")])])]

/-- Sample success envelope carrying samplePayload1. -/
def sampleEnvelope1 : Envelope :=
  Envelope.mk 200 "" "" (RawData.value (Json.obj samplePayload1))

/-- C4 witness: caller u1 sees their own answer unchanged. -/
theorem C4_self_ownership_witness :
    (sampleEnvelope1.data = RawData.value (Json.obj samplePayload1)
      ∧ (extractAnswerOwnerID samplePayload1 = "u1"
        ∨ extractQuestionOwnerID samplePayload1 = "u1"))
    ∧ filterAnswerResponse pathAnswerInfo "u1"
        (Body.wellFormed sampleEnvelope1) = (none, 0, false)
    ∧ forwardFiltered pathAnswerInfo "u1" 200
        (Body.wellFormed sampleEnvelope1)
      = (200, Body.wellFormed sampleEnvelope1) := by
  have h := C4_self_ownership sampleEnvelope1 "u1" samplePayload1 200 rfl
    (Or.inl (by decide))
  exact ⟨⟨rfl, Or.inl (by decide)⟩, h.1, h.2⟩

/-- C1: for the single-resource endpoint, when the envelope data decodes as
an object, at least one owner is extractable, and neither extracted owner
equals the caller identity, the filter reports changed = true with status
override 403 and the forbidden envelope as body, and the middleware writes
status 403 with the forbidden envelope to the real sink. -/
theorem C1_forbidden (envelope : Envelope) (userID : String)
    (payload : List (String × Json)) (status : Nat)
    (hdata : envelope.data = RawData.value (Json.obj payload))
    (hsome : ¬(extractAnswerOwnerID payload = ""
      ∧ extractQuestionOwnerID payload = ""))
    (ha : extractAnswerOwnerID payload ≠ userID)
    (hq : extractQuestionOwnerID payload ≠ userID) :
    filterAnswerResponse pathAnswerInfo userID (Body.wellFormed envelope)
      = (some forbiddenEnvelope, 403, true)
    ∧ forwardFiltered pathAnswerInfo userID status (Body.wellFormed envelope)
      = (403, Body.wellFormed forbiddenEnvelope) := by
  have hfi : filterAnswerInfo envelope userID
      = (some forbiddenEnvelope, 403, true) := by
    simp [filterAnswerInfo, hdata, hsome, ha, hq]
  have hfr : filterAnswerResponse pathAnswerInfo userID
      (Body.wellFormed envelope) = (some forbiddenEnvelope, 403, true) := by
    simp [filterAnswerResponse, hdata, hfi]
  refine ⟨hfr, ?_⟩
  simp [forwardFiltered, hfr, bodyOfFiltered]

/-- C1 witness: caller u2 requesting u1's answer receives status 403 and
the forbidden envelope. -/
theorem C1_forbidden_witness :
    (sampleEnvelope1.data = RawData.value (Json.obj samplePayload1)
      ∧ ¬(extractAnswerOwnerID samplePayload1 = ""
        ∧ extractQuestionOwnerID samplePayload1 = "")
      ∧ extractAnswerOwnerID samplePayload1 ≠ "u2"
      ∧ extractQuestionOwnerID samplePayload1 ≠ "u2")
    ∧ filterAnswerResponse pathAnswerInfo "u2"
        (Body.wellFormed sampleEnvelope1)
      = (some forbiddenEnvelope, 403, true)
    ∧ forwardFiltered pathAnswerInfo "u2" 200
        (Body.wellFormed sampleEnvelope1)
      = (403, Body.wellFormed forbiddenEnvelope) := by
  have h := C1_forbidden sampleEnvelope1 "u2" samplePayload1 200 rfl
    (by decide) (by decide) (by decide)
  exact ⟨⟨rfl, by decide, by decide, by decide⟩, h.1, h.2⟩

/-- C3: for both configured endpoints and every caller identity, a body
the envelope codec rejects, an envelope whose data is absent or the literal
null, or (for the info endpoint) data that decodes to a non-object all make
the filter report changed = false, and the captured status and body are
forwarded to the real sink exactly. -/
theorem C3_passthrough (path userID : String) (status : Nat) (body : Body)
    (hpath : path = pathAnswerInfo ∨ path = pathAnswerList)
    (hcase : body = Body.malformed
      ∨ (∃ e, body = Body.wellFormed e
          ∧ (e.data = RawData.absent ∨ e.data = RawData.nullLit))
      ∨ (path = pathAnswerInfo ∧ ∃ e j, body = Body.wellFormed e
          ∧ e.data = RawData.value j ∧ ∀ fields, j ≠ Json.obj fields)) :
    (filterAnswerResponse path userID body).2.2 = false
    ∧ forwardFiltered path userID status body = (status, body) := by
  have hfr : (filterAnswerResponse path userID body).2.2 = false := by
    rcases hcase with h | ⟨e, he, hd | hd⟩ | ⟨hp, e, j, he, hd, hobj⟩
    · simp [h, filterAnswerResponse]
    · simp [he, filterAnswerResponse, hd]
    · simp [he, filterAnswerResponse, hd]
    · have hfi : filterAnswerInfo e userID = (none, 0, false) := by
        cases j with
        | obj fields => exact absurd rfl (hobj fields)
        | null => simp [filterAnswerInfo, hd]
        | bool b => simp [filterAnswerInfo, hd]
        | num n => simp [filterAnswerInfo, hd]
        | str s => simp [filterAnswerInfo, hd]
        | arr xs => simp [filterAnswerInfo, hd]
      subst hp
      simp [he, filterAnswerResponse, hd, hfi]
  exact ⟨hfr, forwardFiltered_of_unchanged _ _ _ _ hfr⟩

/-- C3 witness: a malformed body on the info endpoint passes through with
its original status. -/
theorem C3_passthrough_witness :
    (pathAnswerInfo = pathAnswerInfo ∨ pathAnswerInfo = pathAnswerList)
    ∧ (Body.malformed = Body.malformed
      ∨ (∃ e, Body.malformed = Body.wellFormed e
          ∧ (e.data = RawData.absent ∨ e.data = RawData.nullLit))
      ∨ (pathAnswerInfo = pathAnswerInfo
          ∧ ∃ e j, Body.malformed = Body.wellFormed e
            ∧ e.data = RawData.value j ∧ ∀ fields, j ≠ Json.obj fields))
    ∧ (filterAnswerResponse pathAnswerInfo "u1" Body.malformed).2.2 = false
    ∧ forwardFiltered pathAnswerInfo "u1" 500 Body.malformed
      = (500, Body.malformed) := by
  have h := C3_passthrough pathAnswerInfo "u1" 500 Body.malformed
    (Or.inl rfl) (Or.inl rfl)
  exact ⟨Or.inl rfl, Or.inl rfl, h.1, h.2⟩

/-- Modelled from the spec's words (section 4.3), for comparison with the
source extractors: looking for the owner inside X means returning the
string-valued key id of a nested object keyed user_info, else empty. -/
def specOwnerInside (x : List (String × Json)) : String :=
  match jlookup x "user_info" with
  | some (Json.obj userInfo) =>
      match jlookup userInfo "id" with
      | some (Json.str id) => id
      | _ => ""
  | _ => ""

/-- Modelled from the spec's words: the answer owner is found inside a
nested object keyed info when one is present, otherwise directly inside
the node. -/
def specAnswerOwner (node : List (String × Json)) : String :=
  match jlookup node "info" with
  | some (Json.obj info) => specOwnerInside info
  | _ => specOwnerInside node

/-- Modelled from the spec's words: the question owner is found inside a
nested object keyed question, else one keyed question_info, else empty. -/
def specQuestionOwner (node : List (String × Json)) : String :=
  match jlookup node "question" with
  | some (Json.obj question) => specOwnerInside question
  | _ =>
      match jlookup node "question_info" with
      | some (Json.obj questionInfo) => specOwnerInside questionInfo
      | _ => ""

/-- C6: on every JSON object node the source extractors agree with the
spec's description: extractAnswerOwnerID reads user_info.id under a nested
object keyed info when present and directly in the node otherwise, and
extractQuestionOwnerID applies the same rule under question, else
question_info, else returns empty. -/
theorem C6_extractors (node : List (String × Json)) :
    extractAnswerOwnerID node = specAnswerOwner node
    ∧ extractQuestionOwnerID node = specQuestionOwner node := by
  have hinner : ∀ x, extractUserIDFromInfo x = specOwnerInside x := by
    intro x
    unfold extractUserIDFromInfo specOwnerInside objectAt
    cases h : jlookup x "user_info" with
    | none => rfl
    | some j => cases j <;> rfl
  constructor
  · unfold extractAnswerOwnerID specAnswerOwner objectAt
    cases h : jlookup node "info" with
    | none => simp [hinner]
    | some j => cases j <;> simp [hinner]
  · unfold extractQuestionOwnerID specQuestionOwner objectAt
    cases h : jlookup node "question" with
    | none =>
        cases h2 : jlookup node "question_info" with
        | none => rfl
        | some j2 => cases j2 <;> first | rfl | simp [hinner]
    | some j =>
        cases j <;> simp [hinner] <;>
          (cases h2 : jlookup node "question_info" with
            | none => rfl
            | some j2 => cases j2 <;> rfl)

/-- The keep-predicate of the list invariant: an entry is kept exactly when
it is an object, some owner is extractable from it, and one of its owners
equals the caller identity. -/
def keepEntry (userID : String) (item : Json) : Bool :=
  match item with
  | Json.obj entry =>
      decide (¬(extractAnswerOwnerID entry = ""
          ∧ extractQuestionOwnerID entry = "")
        ∧ (extractAnswerOwnerID entry = userID
          ∨ extractQuestionOwnerID entry = userID))
  | _ => false

/-- The loop body of filterAnswerList keeps an element itself exactly when
keepEntry holds of it. -/
theorem filterEntry_eq_keep (userID : String) (item : Json) :
    filterEntry userID item
      = if keepEntry userID item then some item else none := by
  cases item with
  | obj entry =>
      by_cases h1 : extractAnswerOwnerID entry = ""
          ∧ extractQuestionOwnerID entry = ""
      · simp [filterEntry, keepEntry, h1]
      · by_cases h2 : extractAnswerOwnerID entry = userID
            ∨ extractQuestionOwnerID entry = userID
        · simp [filterEntry, keepEntry, h1, h2]
        · simp [filterEntry, keepEntry, h1, h2]
  | null => rfl
  | bool b => rfl
  | num n => rfl
  | str s => rfl
  | arr xs => rfl

/-- The filterMap over the loop body is the stable filter by keepEntry. -/
theorem filterMap_filterEntry (userID : String) (l : List Json) :
    l.filterMap (filterEntry userID) = l.filter (keepEntry userID) := by
  induction l with
  | nil => rfl
  | cons x xs ih =>
      rw [List.filterMap_cons, List.filter_cons, filterEntry_eq_keep]
      by_cases h : keepEntry userID x
      · simp [h, ih]
      · simp [h, ih]

/-- The two configured paths are distinct strings. -/
theorem pathAnswerList_ne_info : pathAnswerList ≠ pathAnswerInfo := by
  decide

/-- C2: for the page endpoint, when the envelope data decodes as an object
with an array-valued list field, the output list is exactly the stable
sub-sequence of the input list kept by keepEntry (object entries with an
extractable owner equal to the caller; non-objects and ownerless entries
are dropped), and the output count equals its length. -/
theorem C2_list_filter (envelope : Envelope) (userID : String)
    (payload : List (String × Json)) (list : List Json)
    (hdata : envelope.data = RawData.value (Json.obj payload))
    (hlist : jlookup payload "list" = some (Json.arr list)) :
    ∃ payload2,
      filterAnswerResponse pathAnswerList userID (Body.wellFormed envelope)
        = (some (Envelope.mk envelope.code envelope.reason envelope.msg
            (RawData.value (Json.obj payload2))), 0, true)
      ∧ jlookup payload2 "list"
          = some (Json.arr (list.filter (keepEntry userID)))
      ∧ jlookup payload2 "count"
          = some (Json.num (list.filter (keepEntry userID)).length) := by
  refine ⟨setField
      (setField payload "list"
        (Json.arr (list.filterMap (filterEntry userID))))
      "count" (Json.num (list.filterMap (filterEntry userID)).length),
    ?_, ?_, ?_⟩
  · simp [filterAnswerResponse, hdata, filterAnswerList, hlist,
      pathAnswerList_ne_info]
  · rw [jlookup_setField_other _ _ _ _ (by decide), jlookup_setField_self,
      filterMap_filterEntry]
  · rw [jlookup_setField_self, filterMap_filterEntry]

/-- Sample list entry owned by user u1 (flat shape, no info wrapper). -/
def samplePageEntry1 : List (String × Json) :=
  [("user_info", Json.obj [("id", Json.str "u1")])]

/-- Sample list entry owned by user u2. -/
def samplePageEntry2 : List (String × Json) :=
  [("user_info", Json.obj [("id", Json.str "u2")])]

/-- Sample page payload with two entries and a count field. -/
def samplePagePayload : List (String × Json) :=
  [("list", Json.arr [Json.obj samplePageEntry1, Json.obj samplePageEntry2]),
    ("count", Json.num 2)]

/-- Sample page envelope carrying samplePagePayload. -/
def samplePageEnvelope : Envelope :=
  Envelope.mk 200 "" "" (RawData.value (Json.obj samplePagePayload))

/-- C2 witness: caller u1 on a two-entry page keeps only their entry and
the count becomes the kept length. -/
theorem C2_list_filter_witness :
    (samplePageEnvelope.data = RawData.value (Json.obj samplePagePayload)
      ∧ jlookup samplePagePayload "list"
        = some (Json.arr
            [Json.obj samplePageEntry1, Json.obj samplePageEntry2]))
    ∧ ∃ payload2,
        filterAnswerResponse pathAnswerList "u1"
            (Body.wellFormed samplePageEnvelope)
          = (some (Envelope.mk samplePageEnvelope.code
              samplePageEnvelope.reason samplePageEnvelope.msg
              (RawData.value (Json.obj payload2))), 0, true)
        ∧ jlookup payload2 "list"
            = some (Json.arr
                ([Json.obj samplePageEntry1,
                  Json.obj samplePageEntry2].filter (keepEntry "u1")))
        ∧ jlookup payload2 "count"
            = some (Json.num
                ([Json.obj samplePageEntry1,
                  Json.obj samplePageEntry2].filter (keepEntry "u1")).length)
    := by
  have h := C2_list_filter samplePageEnvelope "u1" samplePagePayload
    [Json.obj samplePageEntry1, Json.obj samplePageEntry2] rfl rfl
  exact ⟨⟨rfl, rfl⟩, h⟩

/-- C7: whenever the list filter reports changed = true, no status override
is reported, the envelope's code, reason and msg are unchanged, and on the
data object every field other than list and count is unchanged as a JSON
value while count is overwritten to the kept-element count. -/
theorem C7_list_frame (envelope : Envelope) (userID : String)
    (out : Envelope) (newStatus : Nat)
    (h : filterAnswerList envelope userID = (some out, newStatus, true)) :
    newStatus = 0 ∧ out.code = envelope.code ∧ out.reason = envelope.reason
    ∧ out.msg = envelope.msg
    ∧ ∃ payload list payload2,
        envelope.data = RawData.value (Json.obj payload)
        ∧ jlookup payload "list" = some (Json.arr list)
        ∧ out.data = RawData.value (Json.obj payload2)
        ∧ (∀ key, key ≠ "list" → key ≠ "count" →
            jlookup payload2 key = jlookup payload key)
        ∧ jlookup payload2 "count"
            = some (Json.num (list.filter (keepEntry userID)).length) := by
  cases envelope with
  | mk code reason msg data =>
    cases data with
    | absent => simp [filterAnswerList] at h
    | nullLit => simp [filterAnswerList] at h
    | value j =>
      cases j with
      | obj payload =>
        cases hl : jlookup payload "list" with
        | none => simp [filterAnswerList, hl] at h
        | some lj =>
          cases lj with
          | arr list =>
            simp [filterAnswerList, hl] at h
            obtain ⟨hout, hstatus⟩ := h
            subst hout
            subst hstatus
            refine ⟨rfl, rfl, rfl, rfl, payload, list,
              setField
                (setField payload "list"
                  (Json.arr (list.filterMap (filterEntry userID))))
                "count"
                (Json.num (list.filterMap (filterEntry userID)).length),
              rfl, hl, rfl, ?_, ?_⟩
            · intro key hk1 hk2
              rw [jlookup_setField_other _ _ _ _ hk2,
                jlookup_setField_other _ _ _ _ hk1]
            · rw [jlookup_setField_self, filterMap_filterEntry]
          | null => simp [filterAnswerList, hl] at h
          | bool b => simp [filterAnswerList, hl] at h
          | num n => simp [filterAnswerList, hl] at h
          | str s => simp [filterAnswerList, hl] at h
          | obj o => simp [filterAnswerList, hl] at h
      | null => simp [filterAnswerList] at h
      | bool b => simp [filterAnswerList] at h
      | num n => simp [filterAnswerList] at h
      | str s => simp [filterAnswerList] at h
      | arr xs => simp [filterAnswerList] at h

/-- The envelope the list filter produces on samplePageEnvelope for caller
u1: only their entry is kept and count is overwritten to 1. -/
def samplePageOut : Envelope :=
  Envelope.mk 200 "" ""
    (RawData.value (Json.obj
      [("list", Json.arr [Json.obj samplePageEntry1]),
        ("count", Json.num 1)]))

/-- C7 witness: the frame conditions hold of the concrete filtered page
response for caller u1. -/
theorem C7_list_frame_witness :
    filterAnswerList samplePageEnvelope "u1" = (some samplePageOut, 0, true)
    ∧ ((0 : Nat) = 0 ∧ samplePageOut.code = samplePageEnvelope.code
      ∧ samplePageOut.reason = samplePageEnvelope.reason
      ∧ samplePageOut.msg = samplePageEnvelope.msg
      ∧ ∃ payload list payload2,
          samplePageEnvelope.data = RawData.value (Json.obj payload)
          ∧ jlookup payload "list" = some (Json.arr list)
          ∧ samplePageOut.data = RawData.value (Json.obj payload2)
          ∧ (∀ key, key ≠ "list" → key ≠ "count" →
              jlookup payload2 key = jlookup payload key)
          ∧ jlookup payload2 "count"
              = some (Json.num (list.filter (keepEntry "u1")).length)) :=
  ⟨rfl, C7_list_frame samplePageEnvelope "u1" samplePageOut 0 rfl⟩

end AnswerPrivate
